import Mathlib

/-!
Shallow embedding of the todo application's task storage and query engine
(`todo_app.py`: `Task`, `TaskManager`, and the due-date helpers of
`CLIInterface`), together with theorems settling the specification claims.

Modelling conventions:
* Python strings are Lean `String`s; character-level operations
  (`str.strip`, `str.lower`, lexicographic comparison) are defined on the
  underlying `List Char` so that they compute by kernel reduction.
  Python compares strings by code points, which is exactly `Char.toNat`
  comparison.
* Python `datetime` values are modelled by the `DateTime` structure
  (naive local timestamps, second precision — the application only ever
  creates timestamps of that shape via `strptime("%Y-%m-%d %H:%M")` and
  `isoformat`). `datetime` comparison and subtraction are modelled through
  `toSecs`, the timestamp's position on the time line in seconds.
* Calls to `datetime.now()` are modelled by explicit `now` parameters.
* `raise ValueError` is modelled by `Except.error` / `Option.none`; where a
  Python method mutates state before raising, the embedded function returns
  the mutated state alongside the error.
-/

/-! ## Character and string helpers -/

/-- Whitespace test used by Python's `str.strip`. -/
def isSpaceChar (c : Char) : Bool :=
  c = ' ' || c = '\t' || c = '\n' || c = '\r'

/-- Drop leading and trailing whitespace from a character list. -/
def stripChars (l : List Char) : List Char :=
  ((l.dropWhile isSpaceChar).reverse.dropWhile isSpaceChar).reverse

/-- Python's `str.strip()`. -/
def pyStrip (s : String) : String := String.mk (stripChars s.data)

/-- Lexicographic `≤` on character lists by code point, as Python compares
strings. -/
def charListLe : List Char → List Char → Bool
  | [], _ => true
  | _ :: _, [] => false
  | a :: as, b :: bs =>
    if a.toNat < b.toNat then true
    else if a.toNat = b.toNat then charListLe as bs
    else false

/-- Python's `<=` on strings (code-point lexicographic order). -/
def pyStrLe (a b : String) : Bool := charListLe a.data b.data

/-- ASCII lower-casing of one character (Python `str.lower` restricted to
ASCII, which covers every string the application produces). -/
def lowerChar (c : Char) : Char :=
  if 65 ≤ c.toNat ∧ c.toNat ≤ 90 then Char.ofNat (c.toNat + 32) else c

/-- Python's `str.lower()` (ASCII). -/
def pyLower (s : String) : String := String.mk (s.data.map lowerChar)

/-! ## Dates: the `datetime` model -/

/-- Naive `datetime` value at second precision. -/
structure DateTime where
  year : Nat
  month : Nat
  day : Nat
  hour : Nat
  minute : Nat
  second : Nat
deriving DecidableEq, Repr

/-- Gregorian leap-year test, exactly the condition in
`TaskManager.calculate_next_due_date`:
`year % 4 == 0 and (year % 100 != 0 or year % 400 == 0)`. -/
def isLeapYear (y : Nat) : Bool :=
  y % 4 = 0 && (y % 100 ≠ 0 || y % 400 = 0)

/-- Number of days of a month, exactly the `max_day` computation in
`calculate_next_due_date` (and the Gregorian calendar that Python's
`datetime.replace` validates against). -/
def daysInMonth (y m : Nat) : Nat :=
  if m = 2 then (if isLeapYear y then 29 else 28)
  else if m = 4 ∨ m = 6 ∨ m = 9 ∨ m = 11 then 30
  else 31

/-- Validity of a `DateTime`, as enforced by Python's `datetime` constructor. -/
def ValidDate (d : DateTime) : Prop :=
  1 ≤ d.year ∧ d.year ≤ 9999 ∧ 1 ≤ d.month ∧ d.month ≤ 12 ∧
  1 ≤ d.day ∧ d.day ≤ daysInMonth d.year d.month ∧
  d.hour ≤ 23 ∧ d.minute ≤ 59 ∧ d.second ≤ 59

instance (d : DateTime) : Decidable (ValidDate d) := by
  unfold ValidDate; infer_instance

/-- Advance a date by one calendar day (`timedelta(days=1)`), keeping the
wall-clock time. Python's calendar ends at 9999-12-31 (`datetime.MAXYEAR`):
stepping past it raises `OverflowError`, modelled as `none`. -/
def succDay (d : DateTime) : Option DateTime :=
  if d.day < daysInMonth d.year d.month then some { d with day := d.day + 1 }
  else if d.month < 12 then some { d with month := d.month + 1, day := 1 }
  else if d.year < 9999 then some { d with year := d.year + 1, month := 1, day := 1 }
  else none

/-- Advance a date by `k` calendar days (`timedelta(days=k)`); `none` models
the `OverflowError` raised when the result would pass 9999-12-31. -/
def addDays : Nat → DateTime → Option DateTime
  | 0, d => some d
  | k + 1, d => (succDay d).bind (addDays k)

/-- Position of a timestamp on the time line, in seconds; `datetime`
comparison and subtraction are comparison and subtraction of these values. -/
def toSecs (d : DateTime) : Nat :=
  let n := d.year - 1
  let daysBeforeYear := 365 * n + (n / 4 + n / 400 - n / 100)
  let daysBeforeMonth :=
    List.foldl (fun a k => a + daysInMonth d.year (k + 1)) 0 (List.range (d.month - 1))
  (daysBeforeYear + daysBeforeMonth + (d.day - 1)) * 86400 +
    d.hour * 3600 + d.minute * 60 + d.second

/-- Parse one decimal digit. -/
def digitVal (c : Char) : Option Nat :=
  if c.isDigit then some (c.toNat - 48) else none

/-- Parse two decimal digits. -/
def digits2 (a b : Char) : Option Nat := do
  let x ← digitVal a
  let y ← digitVal b
  pure (x * 10 + y)

/-- Parse four decimal digits. -/
def digits4 (a b c d : Char) : Option Nat := do
  let x ← digits2 a b
  let y ← digits2 c d
  pure (x * 100 + y)

/-- Python's `datetime.fromisoformat`, restricted to the canonical
`YYYY-MM-DDTHH:MM:SS` shape — the only shape the application itself ever
stores (the CLI builds due dates with `strptime("%Y-%m-%d %H:%M").isoformat()`
and the engine re-emits them with `isoformat()`). `none` models the
`ValueError` Python raises on an unparseable string. -/
def fromisoformat (s : String) : Option DateTime :=
  match s.data with
  | [y1, y2, y3, y4, '-', m1, m2, '-', d1, d2, 'T',
     h1, h2, ':', n1, n2, ':', s1, s2] => do
    let y ← digits4 y1 y2 y3 y4
    let mo ← digits2 m1 m2
    let da ← digits2 d1 d2
    let h ← digits2 h1 h2
    let mi ← digits2 n1 n2
    let se ← digits2 s1 s2
    let d : DateTime := ⟨y, mo, da, h, mi, se⟩
    if ValidDate d then pure d else none
  | _ => none

/-- Left-pad a number to two digits. -/
def pad2 (n : Nat) : String := (if n < 10 then "0" else "") ++ Nat.repr n

/-- Left-pad a number to four digits. -/
def pad4 (n : Nat) : String :=
  (if n < 10 then "000" else if n < 100 then "00" else if n < 1000 then "0" else "")
    ++ Nat.repr n

/-- Python's `datetime.isoformat()` on a second-precision value. -/
def isoformat (d : DateTime) : String :=
  pad4 d.year ++ "-" ++ pad2 d.month ++ "-" ++ pad2 d.day ++ "T" ++
    pad2 d.hour ++ ":" ++ pad2 d.minute ++ ":" ++ pad2 d.second

/-! ## The recurrence next-date algorithm -/

/-- Date-level core of `TaskManager.calculate_next_due_date`: the arithmetic
performed between `fromisoformat` and `isoformat`. The monthly branch mirrors
the source: increment the month with December rolling into January of the next
year, try to keep the day (`datetime.replace` raises exactly when the day does
not exist in the target month), and on failure clamp to the `max_day` computed
by the source's leap-year-aware formula. Error paths, modelled as `none`:
the daily/weekly branches raise `OverflowError` past 9999-12-31, and the
monthly branch raises `ValueError` when the target year exceeds 9999
(`datetime.MAXYEAR`) — the `try` fails on the year before the day is even
considered, and the `except` branch's fallback `replace` call re-raises the
same `ValueError` uncaught. -/
def nextDueDate (d : DateTime) (recurrence : String) : Option DateTime :=
  if recurrence = "daily" then addDays 1 d
  else if recurrence = "weekly" then addDays 7 d
  else if recurrence = "monthly" then
    let roll := d.month + 1 > 12
    let y := if roll then d.year + 1 else d.year
    let m := if roll then 1 else d.month + 1
    if y > 9999 then none
    else if d.day ≤ daysInMonth y m then some { d with year := y, month := m }
    else some { d with year := y, month := m, day := daysInMonth y m }
  else some d

/-- `TaskManager.calculate_next_due_date`: parse the stored ISO string,
compute the next date, and re-serialize. `none` models the `ValueError`
propagated from `fromisoformat` as well as the `OverflowError`/`ValueError`
raised by the date arithmetic at the calendar's 9999 bound. -/
def calculate_next_due_date (current_due_date : String) (recurrence : String) :
    Option String :=
  (fromisoformat current_due_date).bind fun d =>
    (nextDueDate d recurrence).map isoformat

/-! ## The task store -/

/-- The `Task` dataclass (renamed: `Task` is taken by the Lean core). `recurrence` is a plain `String` because
`__post_init__` normalizes an absent recurrence to `"none"` before the value
is ever stored. `created_at` defaulting to `datetime.now().isoformat()` is
made explicit at each construction site. -/
structure TodoTask where
  id : Nat
  description : String
  completed : Bool
  priority : Option String
  tags : List String
  created_at : String
  due_date : Option String
  recurrence : String
  last_completed : Option String
deriving DecidableEq, Repr

/-- The `TaskManager` state: the ordered task list and the id counter. -/
structure TaskManager where
  tasks : List TodoTask
  nextId : Nat
deriving DecidableEq, Repr

/-- `TaskManager.__init__`. -/
def initManager : TaskManager := { tasks := [], nextId := 1 }

/-- `TaskManager.get_task_by_id`: first task with the given id. -/
def get_task_by_id : List TodoTask → Nat → Option TodoTask
  | [], _ => none
  | t :: ts, i => if t.id = i then some t else get_task_by_id ts i

/-- Write back an in-place mutation of the task `get_task_by_id` found:
replace the first task carrying the given id. -/
def replaceFirstById : List TodoTask → Nat → TodoTask → List TodoTask
  | [], _, _ => []
  | t :: ts, i, t' => if t.id = i then t' :: ts else t :: replaceFirstById ts i t'

/-- `list.remove` on the task `get_task_by_id` found: drop the first task
carrying the given id. -/
def eraseFirstById : List TodoTask → Nat → List TodoTask
  | [], _ => []
  | t :: ts, i => if t.id = i then ts else t :: eraseFirstById ts i

/-- Tag validation loop of `add_task`/`update_task`: the first offending tag
decides the error message (length is checked before emptiness, as in the
source). -/
def firstTagError : List String → Option String
  | [] => none
  | t :: ts =>
    if t.data.length > 30 then some "Tags cannot be longer than 30 characters"
    else if pyStrip t = "" then some "Tags cannot be empty or contain only whitespace"
    else firstTagError ts

/-- Priority check of `add_task`:
`priority is not None and priority not in ["high", "medium", "low"]`. -/
def priorityInvalid : Option String → Bool
  | none => false
  | some p => !(p = "high" || p = "medium" || p = "low")

/-- Recurrence check of `add_task`:
`recurrence is not None and recurrence not in [...]`. -/
def recurrenceInvalid : Option String → Bool
  | none => false
  | some r => !(r = "none" || r = "daily" || r = "weekly" || r = "monthly")

/-- `TaskManager.add_task`. Validation happens before any state change, in
source order: description, priority, recurrence, tag count, per-tag checks.
`now` stands for the `datetime.now().isoformat()` read inside
`Task.__post_init__`. On success the new task is appended and the id counter
advanced. -/
def add_task (m : TaskManager) (description : String) (priority : Option String)
    (tags : Option (List String)) (due_date : Option String)
    (recurrence : Option String) (now : String) :
    Except String (TodoTask × TaskManager) :=
  if pyStrip description = "" then
    .error "Task description cannot be empty or contain only whitespace"
  else if priorityInvalid priority then
    .error "Priority must be one of: 'high', 'medium', 'low', or None"
  else if recurrenceInvalid recurrence then
    .error "Recurrence must be one of: 'none', 'daily', 'weekly', 'monthly', or None"
  else
    let tagList := tags.getD []
    if tagList.length > 10 then .error "Tasks cannot have more than 10 tags"
    else
      match firstTagError tagList with
      | some e => .error e
      | none =>
        let task : TodoTask :=
          { id := m.nextId, description := pyStrip description, completed := false,
            priority := priority, tags := tagList, created_at := now,
            due_date := due_date, recurrence := recurrence.getD "none",
            last_completed := none }
        .ok (task, { tasks := m.tasks ++ [task], nextId := m.nextId + 1 })

/-- Description step of `update_task` (`if new_description is not None: ...`). -/
def applyDescription (t : TodoTask) : Option String → Except String TodoTask
  | none => .ok t
  | some d =>
    if pyStrip d = "" then
      .error "Task description cannot be empty or contain only whitespace"
    else .ok { t with description := pyStrip d }

/-- Priority step of `update_task` (`None` in the allowed list is dead code:
the branch is only entered when the argument is not `None`). -/
def applyPriority (t : TodoTask) : Option String → Except String TodoTask
  | none => .ok t
  | some p =>
    if p = "high" || p = "medium" || p = "low" then .ok { t with priority := some p }
    else .error "Priority must be one of: 'high', 'medium', 'low', or None"

/-- Tags step of `update_task`: count check, then the per-tag loop, then the
copy into the task. -/
def applyTags (t : TodoTask) : Option (List String) → Except String TodoTask
  | none => .ok t
  | some ts =>
    if ts.length > 10 then .error "Tasks cannot have more than 10 tags"
    else
      match firstTagError ts with
      | some e => .error e
      | none => .ok { t with tags := ts }

/-- Due-date step of `update_task`: stored verbatim, no validation. -/
def applyDueDate (t : TodoTask) : Option String → TodoTask
  | none => t
  | some s => { t with due_date := some s }

/-- Recurrence step of `update_task`. -/
def applyRecurrence (t : TodoTask) : Option String → Except String TodoTask
  | none => .ok t
  | some r =>
    if r = "none" || r = "daily" || r = "weekly" || r = "monthly" then
      .ok { t with recurrence := r }
    else .error "Recurrence must be one of: 'none', 'daily', 'weekly', 'monthly', or None"

/-- `TaskManager.update_task`. The source mutates the found task field by
field, so a `ValueError` thrown by a later field's validation leaves the
earlier fields already applied; the embedded function therefore returns the
(possibly partially updated) state next to the outcome. -/
def update_task (m : TaskManager) (task_id : Nat) (new_description : Option String)
    (new_priority : Option String) (new_tags : Option (List String))
    (new_due_date : Option String) (new_recurrence : Option String) :
    Except String Bool × TaskManager :=
  match get_task_by_id m.tasks task_id with
  | none => (.ok false, m)
  | some t0 =>
    let write := fun t => { m with tasks := replaceFirstById m.tasks task_id t }
    match applyDescription t0 new_description with
    | .error e => (.error e, write t0)
    | .ok t1 =>
      match applyPriority t1 new_priority with
      | .error e => (.error e, write t1)
      | .ok t2 =>
        match applyTags t2 new_tags with
        | .error e => (.error e, write t2)
        | .ok t3 =>
          let t4 := applyDueDate t3 new_due_date
          match applyRecurrence t4 new_recurrence with
          | .error e => (.error e, write t4)
          | .ok t5 => (.ok true, write t5)

/-- `TaskManager.delete_task`. -/
def delete_task (m : TaskManager) (task_id : Nat) : Bool × TaskManager :=
  match get_task_by_id m.tasks task_id with
  | some _ => (true, { m with tasks := eraseFirstById m.tasks task_id })
  | none => (false, m)

/-- `TaskManager.mark_incomplete`. -/
def mark_incomplete (m : TaskManager) (task_id : Nat) : Bool × TaskManager :=
  match get_task_by_id m.tasks task_id with
  | some t => (true, { m with tasks := replaceFirstById m.tasks task_id { t with completed := false } })
  | none => (false, m)

/-- `TaskManager.mark_complete`. The found task is marked completed and
`last_completed` stamped before the recurrence check, so that mutation
persists even when `calculate_next_due_date` raises (`Except.error`). The
spawn condition is the source's
`task.recurrence and task.recurrence != "none" and task.due_date`
(Python truthiness: the empty string is falsy). `now` stands for both
`datetime.now().isoformat()` reads. -/
def mark_complete (m : TaskManager) (task_id : Nat) (now : String) :
    Except String Bool × TaskManager :=
  match get_task_by_id m.tasks task_id with
  | none => (.ok false, m)
  | some t =>
    let t1 := { t with completed := true, last_completed := some now }
    let m1 := { m with tasks := replaceFirstById m.tasks task_id t1 }
    if t1.recurrence ≠ "" ∧ t1.recurrence ≠ "none" ∧ t1.due_date.getD "" ≠ "" then
      match calculate_next_due_date (t1.due_date.getD "") t1.recurrence with
      | none => (.error "ValueError", m1)
      | some nd =>
        let newTask : TodoTask :=
          { id := m1.nextId, description := t1.description, completed := false,
            priority := t1.priority, tags := t1.tags, created_at := now,
            due_date := some nd, recurrence := t1.recurrence, last_completed := none }
        (.ok true, { tasks := m1.tasks ++ [newTask], nextId := m1.nextId + 1 })
    else (.ok true, m1)

/-! ## Queries: filter, classifier, sort -/

/-- Due-status predicate of `filter_tasks` for `due_status="upcoming"`:
`task.due_date and parsed > now and (parsed - now).seconds > 3600`.
A Python `timedelta`'s `.seconds` attribute is the seconds component after
splitting off whole days, i.e. the total difference modulo 86400. The
`none`-parse branch models the `ValueError` Python would raise there as
exclusion; all claims are stated on parseable due dates. -/
def upcomingFilter (now : Nat) (t : TodoTask) : Bool :=
  match t.due_date with
  | none => false
  | some s =>
    if s = "" then false
    else match fromisoformat s with
      | none => false
      | some d => decide (toSecs d > now) && decide ((toSecs d - now) % 86400 > 3600)

/-- Due-status predicate of `filter_tasks` for `due_status="due-soon"`:
`task.due_date and parsed > now and (parsed - now).seconds <= 3600`. -/
def dueSoonFilter (now : Nat) (t : TodoTask) : Bool :=
  match t.due_date with
  | none => false
  | some s =>
    if s = "" then false
    else match fromisoformat s with
      | none => false
      | some d => decide (toSecs d > now) && decide ((toSecs d - now) % 86400 ≤ 3600)

/-- Due-status predicate of `filter_tasks` for `due_status="overdue"`:
`task.due_date and parsed < now and not task.completed`. -/
def overdueFilter (now : Nat) (t : TodoTask) : Bool :=
  match t.due_date with
  | none => false
  | some s =>
    if s = "" then false
    else match fromisoformat s with
      | none => false
      | some d => decide (toSecs d < now) && !t.completed

/-- `TaskManager.filter_tasks`. Each stage narrows the running list exactly as
the source's successive list comprehensions do; `now` stands for the single
`datetime.now()` read. An unrecognized `due_status`/`recurrence` value other
than the handled ones applies no filter, as in the source. -/
def filter_tasks (m : TaskManager) (status : Option String)
    (priority : Option String) (tags : Option (List String))
    (due_status : Option String) (recurrence : Option String) (now : Nat) :
    List TodoTask :=
  let ft := m.tasks
  let ft := if status = some "active" then ft.filter (fun t => !t.completed)
            else if status = some "completed" then ft.filter (fun t => t.completed)
            else ft
  let ft := match priority with
            | some p => ft.filter (fun t => t.priority = some p)
            | none => ft
  let ft := match tags with
            | some tl => if tl.isEmpty then ft
                         else ft.filter (fun t => tl.any (fun g => t.tags.contains g))
            | none => ft
  let ft := match due_status with
            | some ds =>
              if ds = "" ∨ ds = "all" then ft
              else if ds = "upcoming" then ft.filter (upcomingFilter now)
              else if ds = "due-soon" then ft.filter (dueSoonFilter now)
              else if ds = "overdue" then ft.filter (overdueFilter now)
              else ft
            | none => ft
  let ft := match recurrence with
            | some r =>
              if r = "" ∨ r = "all" then ft
              else if r = "none" then
                ft.filter (fun t => t.recurrence = "" || t.recurrence = "none")
              else ft.filter (fun t => t.recurrence = r)
            | none => ft
  ft

/-- `CLIInterface.get_due_date_status`, the standalone due-status classifier.
It sees only the due date, never the task's completed flag. `none` models the
`ValueError` propagated from `fromisoformat`; the empty or absent due date
yields the empty status, and otherwise the genuine total difference
(`total_seconds`, not the `.seconds` component) against the one-hour bound. -/
def get_due_date_status (due_date : Option String) (now : Nat) :
    Option (String × String) :=
  match due_date with
  | none => some ("", "")
  | some s =>
    if s = "" then some ("", "")
    else match fromisoformat s with
      | none => none
      | some d =>
        if toSecs d < now then some ("OVERDUE", "[RED] Overdue")
        else if toSecs d - now ≤ 3600 then some ("DUE-SOON", "[YELLOW] Due Soon")
        else some ("UPCOMING", "[GREEN] Upcoming")

/-- Python's `sorted(key=..., reverse=...)` with a string-valued key: a stable
sort, descending when `rev` is true (ties keep insertion order either way,
which is what a stable merge sort with the flipped comparator produces). -/
def sortByKeyStr (key : TodoTask → String) (rev : Bool) (l : List TodoTask) :
    List TodoTask :=
  l.mergeSort fun a b => if rev then pyStrLe (key b) (key a) else pyStrLe (key a) (key b)

/-- Python's `sorted(key=..., reverse=...)` with a numeric key. -/
def sortByKeyNat (key : TodoTask → Nat) (rev : Bool) (l : List TodoTask) :
    List TodoTask :=
  l.mergeSort fun a b =>
    if rev then decide (key b ≤ key a) else decide (key a ≤ key b)

/-- The `priority_order` mapping `{"high": 4, "medium": 3, "low": 2, None: 1}`
of `sort_tasks`. Any other stored priority raises `KeyError` in Python and is
unreachable for tasks created through the validating operations. -/
def priorityOrder : Option String → Nat
  | some "high" => 4
  | some "medium" => 3
  | some "low" => 2
  | none => 1
  | some _ => 0

/-- The `datetime.max.isoformat()` sentinel used by `sort_tasks` for tasks
without a due date. -/
def datetimeMaxIso : String := "9999-12-31T23:59:59.999999"

/-- The `due_date_key` of `sort_tasks`: the stored string itself, or the
`datetime.max` sentinel when absent. -/
def dueDateKey (t : TodoTask) : String := t.due_date.getD datetimeMaxIso

/-- The `due_status_key` of `sort_tasks`: 0 = no due date, 1 = upcoming,
2 = due soon, 3 = overdue. The unparseable-due-date branch (a `ValueError` in
Python) is mapped to 0 and is unreachable for the data model's due dates. -/
def dueStatusKey (now : Nat) (t : TodoTask) : Nat :=
  match t.due_date with
  | none => 0
  | some s =>
    if s = "" then 0
    else match fromisoformat s with
      | none => 0
      | some d =>
        if toSecs d < now then 3
        else if toSecs d - now ≤ 3600 then 2
        else 1

/-- `TaskManager.sort_tasks`. `now` stands for the `datetime.now()` read used
only by the `due_status` key; an unknown key falls back to `created_at`. -/
def sort_tasks (m : TaskManager) (sort_by : String) (rev : Bool) (now : Nat) :
    List TodoTask :=
  if sort_by = "created_at" then sortByKeyStr (fun t => t.created_at) rev m.tasks
  else if sort_by = "priority" then
    sortByKeyNat (fun t => priorityOrder t.priority) rev m.tasks
  else if sort_by = "title" then
    sortByKeyStr (fun t => pyLower t.description) rev m.tasks
  else if sort_by = "due_date" then sortByKeyStr dueDateKey rev m.tasks
  else if sort_by = "due_status" then sortByKeyNat (dueStatusKey now) rev m.tasks
  else sortByKeyStr (fun t => t.created_at) rev m.tasks

/-! ## Sequences of engine calls -/

/-- An `add_task` or `delete_task` call with its arguments (the interleavings
claim C7 quantifies over). -/
inductive AddDelOp where
  | addOp (description : String) (priority : Option String)
      (tags : Option (List String)) (due_date : Option String)
      (recurrence : Option String) (now : String)
  | delOp (task_id : Nat)

/-- Run a sequence of `add`/`delete` calls, collecting the ids returned by the
successful `add` calls in call order. A failed `add` raises before touching
the state, so it contributes no id and leaves the manager unchanged. -/
def runAddDel : TaskManager → List AddDelOp → TaskManager × List Nat
  | m, [] => (m, [])
  | m, .addOp d p t dd r now :: ops =>
    match add_task m d p t dd r now with
    | .ok (task, m') =>
      let rest := runAddDel m' ops
      (rest.1, task.id :: rest.2)
    | .error _ => runAddDel m ops
  | m, .delOp i :: ops => runAddDel (delete_task m i).2 ops

/-- Any state-mutating engine call with its arguments. -/
inductive EngineOp where
  | addOp (description : String) (priority : Option String)
      (tags : Option (List String)) (due_date : Option String)
      (recurrence : Option String) (now : String)
  | updateOp (task_id : Nat) (new_description new_priority : Option String)
      (new_tags : Option (List String)) (new_due_date new_recurrence : Option String)
  | delOp (task_id : Nat)
  | completeOp (task_id : Nat) (now : String)
  | incompleteOp (task_id : Nat)

/-- The manager state after one engine call — including the state left behind
by a call that raised a `ValidationError`, since the embedded operations
return that state too. -/
def stepEngine (m : TaskManager) : EngineOp → TaskManager
  | .addOp d p t dd r now =>
    match add_task m d p t dd r now with
    | .ok (_, m') => m'
    | .error _ => m
  | .updateOp i d p t dd r => (update_task m i d p t dd r).2
  | .delOp i => (delete_task m i).2
  | .completeOp i now => (mark_complete m i now).2
  | .incompleteOp i => (mark_incomplete m i).2

/-- The manager state after a sequence of engine calls on a fresh manager. -/
def runEngine (ops : List EngineOp) : TaskManager :=
  ops.foldl stepEngine initManager

/-! ## Store lemmas -/

theorem get_task_by_id_id {l : List TodoTask} {i : Nat} {t : TodoTask}
    (h : get_task_by_id l i = some t) : t.id = i := by
  induction l with
  | nil => simp [get_task_by_id] at h
  | cons a as ih =>
    unfold get_task_by_id at h
    by_cases ha : a.id = i
    · simp [ha] at h; subst h; exact ha
    · simp [ha] at h; exact ih h

theorem get_task_by_id_mem {l : List TodoTask} {i : Nat} {t : TodoTask}
    (h : get_task_by_id l i = some t) : t ∈ l := by
  induction l with
  | nil => simp [get_task_by_id] at h
  | cons a as ih =>
    unfold get_task_by_id at h
    by_cases ha : a.id = i
    · simp [ha] at h; simp [h]
    · simp [ha] at h; exact List.mem_cons_of_mem a (ih h)

theorem get_task_by_id_replace {l : List TodoTask} {i : Nat} {t : TodoTask}
    (t' : TodoTask) (h : get_task_by_id l i = some t) (ht' : t'.id = i) :
    get_task_by_id (replaceFirstById l i t') i = some t' := by
  induction l with
  | nil => simp [get_task_by_id] at h
  | cons a as ih =>
    unfold get_task_by_id at h
    by_cases ha : a.id = i
    · simp [replaceFirstById, ha, get_task_by_id, ht']
    · simp [ha] at h
      simp [replaceFirstById, ha, get_task_by_id, ih h]

theorem get_task_by_id_append {l l' : List TodoTask} {i : Nat} {t : TodoTask}
    (h : get_task_by_id l i = some t) :
    get_task_by_id (l ++ l') i = some t := by
  induction l with
  | nil => simp [get_task_by_id] at h
  | cons a as ih =>
    unfold get_task_by_id at h ⊢
    by_cases ha : a.id = i
    · simpa [ha] using h
    · simp [ha] at h ⊢; exact ih h

theorem length_replaceFirstById (l : List TodoTask) (i : Nat) (t' : TodoTask) :
    (replaceFirstById l i t').length = l.length := by
  induction l with
  | nil => rfl
  | cons a as ih =>
    unfold replaceFirstById
    by_cases ha : a.id = i <;> simp [ha, ih]

theorem mem_replaceFirstById {x : TodoTask} {l : List TodoTask} {i : Nat}
    {t' : TodoTask} (h : x ∈ replaceFirstById l i t') : x ∈ l ∨ x = t' := by
  induction l with
  | nil => simp [replaceFirstById] at h
  | cons a as ih =>
    unfold replaceFirstById at h
    by_cases ha : a.id = i
    · simp [ha] at h
      rcases h with h | h
      · right; exact h
      · left; exact List.mem_cons_of_mem a h
    · simp [ha] at h
      rcases h with h | h
      · left; simp [h]
      · rcases ih h with h' | h'
        · left; exact List.mem_cons_of_mem a h'
        · right; exact h'

theorem mem_eraseFirstById {x : TodoTask} {l : List TodoTask} {i : Nat}
    (h : x ∈ eraseFirstById l i) : x ∈ l := by
  induction l with
  | nil => simp [eraseFirstById] at h
  | cons a as ih =>
    unfold eraseFirstById at h
    by_cases ha : a.id = i
    · simp [ha] at h; exact List.mem_cons_of_mem a h
    · simp [ha] at h
      rcases h with h | h
      · simp [h]
      · exact List.mem_cons_of_mem a (ih h)

/-! ## Validation lemmas -/

theorem firstTagError_none {ts : List String} (h : firstTagError ts = none) :
    ∀ g ∈ ts, g.data.length ≤ 30 ∧ pyStrip g ≠ "" := by
  induction ts with
  | nil => simp
  | cons a as ih =>
    unfold firstTagError at h
    split at h
    · exact absurd h (by simp)
    · split at h
      · exact absurd h (by simp)
      · next h30 hstrip =>
        intro g hg
        rcases List.mem_cons.mp hg with hg | hg
        · subst hg; exact ⟨by omega, hstrip⟩
        · exact ih h g hg

/-- Success inversion for `add_task`: the produced task, the new state, and
the facts validation guarantees about the stored tags. -/
theorem add_task_ok {m : TaskManager} {d : String} {p : Option String}
    {tg : Option (List String)} {dd : Option String} {r : Option String}
    {now : String} {task : TodoTask} {m' : TaskManager}
    (h : add_task m d p tg dd r now = .ok (task, m')) :
    task = { id := m.nextId, description := pyStrip d, completed := false,
             priority := p, tags := tg.getD [], created_at := now,
             due_date := dd, recurrence := r.getD "none", last_completed := none } ∧
    m' = { tasks := m.tasks ++ [task], nextId := m.nextId + 1 } ∧
    (tg.getD []).length ≤ 10 ∧ firstTagError (tg.getD []) = none := by
  unfold add_task at h
  split at h
  · exact absurd h (by simp)
  · split at h
    · exact absurd h (by simp)
    · split at h
      · exact absurd h (by simp)
      · dsimp only at h
        split at h
        · exact absurd h (by simp)
        · next h4 =>
          split at h
          · exact absurd h (by simp)
          · rename_i h5
            injection h with h
            injection h with ht hm
            refine ⟨ht.symm, ?_, by omega, h5⟩
            rw [← hm, ht]

/-! ## String-order lemmas -/

theorem charListLe_total (a b : List Char) :
    charListLe a b = true ∨ charListLe b a = true := by
  induction a generalizing b with
  | nil => left; rfl
  | cons x xs ih =>
    cases b with
    | nil => right; rfl
    | cons y ys =>
      unfold charListLe
      rcases Nat.lt_trichotomy x.toNat y.toNat with h | h | h
      · left; simp [h]
      · have hlt : ¬ x.toNat < y.toNat := by omega
        have hlt' : ¬ y.toNat < x.toNat := by omega
        rcases ih ys with h' | h'
        · left; simp [hlt, h, h']
        · right; simp [hlt', h.symm, h']
      · right; simp [h]

theorem charListLe_trans {a b c : List Char} (hab : charListLe a b = true)
    (hbc : charListLe b c = true) : charListLe a c = true := by
  induction a generalizing b c with
  | nil => rfl
  | cons x xs ih =>
    cases b with
    | nil => simp [charListLe] at hab
    | cons y ys =>
      cases c with
      | nil => simp [charListLe] at hbc
      | cons z zs =>
        unfold charListLe at hab hbc ⊢
        by_cases hxy : x.toNat < y.toNat
        · by_cases hyz : y.toNat < z.toNat
          · simp [show x.toNat < z.toNat by omega]
          · by_cases hyz' : y.toNat = z.toNat
            · simp [show x.toNat < z.toNat by omega]
            · simp [hyz, hyz'] at hbc
        · by_cases hxy' : x.toNat = y.toNat
          · simp [hxy, hxy'] at hab
            by_cases hyz : y.toNat < z.toNat
            · simp [show x.toNat < z.toNat by omega]
            · by_cases hyz' : y.toNat = z.toNat
              · simp [hyz, hyz'] at hbc
                have hxz : ¬ x.toNat < z.toNat := by omega
                simp [hxz, show x.toNat = z.toNat by omega]
                exact ih hab hbc
              · simp [hyz, hyz'] at hbc
          · simp [hxy, hxy'] at hab

theorem pyStrLe_total (a b : String) : pyStrLe a b = true ∨ pyStrLe b a = true :=
  charListLe_total a.data b.data

theorem pyStrLe_trans {a b c : String} (hab : pyStrLe a b = true)
    (hbc : pyStrLe b c = true) : pyStrLe a c = true :=
  charListLe_trans hab hbc

/-! ## Claim C4: monthly recurrence -/

/-- Month length exactly as the claim words it: February has 29 days in a
leap year (divisible by 4 and not by 100, or divisible by 400) and 28
otherwise; April, June, September and November have 30; the rest have 31. -/
def daysInMonthSpec (y m : Nat) : Nat :=
  if m = 2 then (if (y % 4 = 0 ∧ y % 100 ≠ 0) ∨ y % 400 = 0 then 29 else 28)
  else if m = 4 ∨ m = 6 ∨ m = 9 ∨ m = 11 then 30
  else 31

/-- Monthly step exactly as the claim words it: same day-of-month and
wall-clock time in the following month, December rolling into January of the
next year, the day clamped to the last valid day of the target month. -/
def monthlySpec (d : DateTime) : DateTime :=
  let y := if d.month = 12 then d.year + 1 else d.year
  let m := if d.month = 12 then 1 else d.month + 1
  { d with year := y, month := m, day := min d.day (daysInMonthSpec y m) }

theorem isLeapYear_iff (y : Nat) :
    isLeapYear y = true ↔ ((y % 4 = 0 ∧ y % 100 ≠ 0) ∨ y % 400 = 0) := by
  have h400 : y % 400 = 0 → y % 4 = 0 := by
    intro h
    have := Nat.mod_mod_of_dvd y (by norm_num : (4 : ℕ) ∣ 400)
    omega
  unfold isLeapYear
  simp only [Bool.and_eq_true, Bool.or_eq_true, decide_eq_true_eq]
  constructor
  · rintro ⟨h4, h | h⟩
    · exact Or.inl ⟨h4, h⟩
    · exact Or.inr h
  · rintro (⟨h4, h⟩ | h)
    · exact ⟨h4, Or.inl h⟩
    · exact ⟨h400 h, Or.inr h⟩

theorem daysInMonth_eq_spec (y m : Nat) : daysInMonth y m = daysInMonthSpec y m := by
  unfold daysInMonth daysInMonthSpec
  by_cases h2 : m = 2
  · by_cases hl : ((y % 4 = 0 ∧ y % 100 ≠ 0) ∨ y % 400 = 0)
    · simp [h2, hl, (isLeapYear_iff y).mpr hl]
    · have : isLeapYear y = false :=
        Bool.eq_false_iff.mpr fun h => hl ((isLeapYear_iff y).mp h)
      simp [h2, hl, this]
  · simp [h2]

/-- C4 (amended): for every valid date outside December 9999, the recurrence
algorithm's monthly branch returns the same day-of-month and wall-clock time
in the following month (December rolling into January of the next year),
clamping to the last valid day of the target month — with month lengths given
by the claim's leap-year formula (`daysInMonthSpec`); for a valid date in
December 9999 the branch raises instead (`none`), because the target year
10000 exceeds Python's calendar. The claim's own example,
2025-01-31 10:00 ↦ 2025-02-28 10:00, is checked in the witness. -/
theorem claim_C4 (d : DateTime) (hv : ValidDate d) :
    (¬ (d.month = 12 ∧ d.year = 9999) →
      nextDueDate d "monthly" = some (monthlySpec d)) ∧
    (d.month = 12 ∧ d.year = 9999 → nextDueDate d "monthly" = none) := by
  obtain ⟨-, hy9999, hm1, hm12, hd1, hdim, -, -, -⟩ := hv
  constructor
  · intro hok
    simp only [nextDueDate, monthlySpec]
    norm_num
    by_cases h12 : d.month = 12
    · have h31 : daysInMonth d.year d.month = 31 := by rw [h12]; rfl
      have hylt : ¬ 9999 < d.year + 1 := by
        rcases Nat.lt_or_ge d.year 9999 with h | h
        · omega
        · exact absurd ⟨h12, by omega⟩ hok
      simp only [h12]
      norm_num
      rw [if_neg (by omega : ¬ 9999 < d.year + 1)]
      rw [daysInMonth_eq_spec]
      have hday : d.day ≤ daysInMonthSpec (d.year + 1) 1 := by
        have : daysInMonthSpec (d.year + 1) 1 = 31 := rfl
        omega
      rw [if_pos hday, min_eq_left hday]
      rfl
    · have hlt : ¬ 12 < d.month + 1 := by omega
      simp only [if_neg hlt, if_neg h12]
      rw [if_neg (by omega : ¬ 9999 < d.year)]
      rw [daysInMonth_eq_spec]
      rcases le_or_lt d.day (daysInMonthSpec d.year (d.month + 1)) with hday | hday
      · rw [if_pos hday, min_eq_left hday]
        rfl
      · rw [if_neg (show ¬ d.day ≤ daysInMonthSpec d.year (d.month + 1) by omega),
          min_eq_right (by omega)]
        rfl
  · rintro ⟨h12, h9999⟩
    simp only [nextDueDate]
    norm_num
    rw [h12, h9999]
    rfl

/-- C4 counterexample: 9999-12-15 10:00 is a valid ISO due date, yet the
monthly step errors (`ValueError` in the source) instead of returning the
claim's "same day-of-month in the following month" 10000-01-15 10:00. -/
theorem claim_C4_counterexample :
    ValidDate ⟨9999, 12, 15, 10, 0, 0⟩ ∧
    nextDueDate ⟨9999, 12, 15, 10, 0, 0⟩ "monthly" = none ∧
    calculate_next_due_date "9999-12-15T10:00:00" "monthly" = none ∧
    monthlySpec ⟨9999, 12, 15, 10, 0, 0⟩ = ⟨10000, 1, 15, 10, 0, 0⟩ := by
  refine ⟨by decide, by decide, by decide, by decide⟩

/-- Witness for C4 at the claim's own example: 2025-01-31 10:00 is a valid
date outside December 9999, the algorithm agrees with the claim's description
there, and the resulting date is 2025-02-28 10:00 (2025 is not a leap year). -/
theorem claim_C4_witness :
    (ValidDate ⟨2025, 1, 31, 10, 0, 0⟩ ∧ ¬ ((2025 : Nat) = 9999)) ∧
    nextDueDate ⟨2025, 1, 31, 10, 0, 0⟩ "monthly" =
      some (monthlySpec ⟨2025, 1, 31, 10, 0, 0⟩) ∧
    monthlySpec ⟨2025, 1, 31, 10, 0, 0⟩ = ⟨2025, 2, 28, 10, 0, 0⟩ :=
  ⟨⟨by decide, by decide⟩,
   (claim_C4 ⟨2025, 1, 31, 10, 0, 0⟩ (by decide)).1 (by decide), by decide⟩

/-! ## Claim C10: the engine never validates due_date -/

/-- C10: for every string `s`, `add_task` with `due_date = s` succeeds whenever
the remaining arguments pass validation, storing `s` verbatim in the created
task, and `update_task` with `new_due_date = s` on a stored id returns `True`
and stores `s` verbatim; no `ValidationError` is raised on account of the
due date. -/
theorem claim_C10 (m : TaskManager) (desc : String) (p : Option String)
    (tg : Option (List String)) (r : Option String) (now s : String)
    (i : Nat) (t : TodoTask)
    (hd : pyStrip desc ≠ "") (hp : priorityInvalid p = false)
    (hr : recurrenceInvalid r = false)
    (hc : ¬ (tg.getD []).length > 10) (hte : firstTagError (tg.getD []) = none)
    (hfound : get_task_by_id m.tasks i = some t) :
    (add_task m desc p tg (some s) r now =
      .ok ({ id := m.nextId, description := pyStrip desc, completed := false,
             priority := p, tags := tg.getD [], created_at := now,
             due_date := some s, recurrence := r.getD "none", last_completed := none },
           { tasks := m.tasks ++
               [{ id := m.nextId, description := pyStrip desc, completed := false,
                  priority := p, tags := tg.getD [], created_at := now,
                  due_date := some s, recurrence := r.getD "none",
                  last_completed := none }],
             nextId := m.nextId + 1 })) ∧
    (update_task m i none none none (some s) none =
      (.ok true,
       { m with tasks := replaceFirstById m.tasks i { t with due_date := some s } })) := by
  constructor
  · unfold add_task
    rw [if_neg hd, if_neg (by simp [hp]), if_neg (by simp [hr])]
    dsimp only
    rw [if_neg hc, hte]
  · unfold update_task
    rw [hfound]
    simp [applyDescription, applyPriority, applyTags, applyDueDate, applyRecurrence]

/-- A minimal stored task used by concrete witnesses. -/
def wTask : TodoTask :=
  { id := 1, description := "Buy milk", completed := false, priority := none,
    tags := [], created_at := "2025-01-01T00:00:00", due_date := none,
    recurrence := "none", last_completed := none }

/-- A one-task manager used by concrete witnesses. -/
def wManager : TaskManager := { tasks := [wTask], nextId := 2 }

/-- Witness for C10: the arbitrary string "not a date" is accepted and stored
verbatim by both `add_task` and `update_task` on a concrete manager. -/
theorem claim_C10_witness :
    (add_task wManager "Buy milk" none none (some "not a date") none "t9" =
      .ok ({ id := wManager.nextId, description := pyStrip "Buy milk", completed := false,
             priority := none, tags := (none : Option (List String)).getD [],
             created_at := "t9", due_date := some "not a date",
             recurrence := (none : Option String).getD "none", last_completed := none },
           { tasks := wManager.tasks ++
               [{ id := wManager.nextId, description := pyStrip "Buy milk", completed := false,
                  priority := none, tags := (none : Option (List String)).getD [],
                  created_at := "t9", due_date := some "not a date",
                  recurrence := (none : Option String).getD "none",
                  last_completed := none }],
             nextId := wManager.nextId + 1 })) ∧
    (update_task wManager 1 none none none (some "not a date") none =
      (.ok true,
       { wManager with
           tasks := replaceFirstById wManager.tasks 1
             { wTask with due_date := some "not a date" } })) :=
  claim_C10 wManager "Buy milk" none none none "t9" "not a date" 1 wTask
    (by decide) rfl rfl (by decide) rfl (by decide)

/-! ## Claim C1: update is not atomic -/

/-- The stored task of the C1 scenario. -/
def c1Task : TodoTask :=
  { id := 1, description := "Todo", completed := false, priority := none, tags := [],
    created_at := "2025-01-01T00:00:00", due_date := none, recurrence := "none",
    last_completed := none }

/-- A manager holding only `c1Task`. -/
def c1Manager : TaskManager := { tasks := [c1Task], nextId := 2 }

/-- C1 counterexample: `update(1, description="Valid", priority="bogus")`
raises a `ValidationError`, yet the stored task's description has already
been changed from "Todo" to "Valid" — the claim's atomicity (and its
particular `description` example) fails on the code. -/
theorem claim_C1_counterexample :
    (update_task c1Manager 1 (some "Valid") (some "bogus") none none none).1 =
      .error "Priority must be one of: 'high', 'medium', 'low', or None" ∧
    (get_task_by_id
        (update_task c1Manager 1 (some "Valid") (some "bogus") none none none).2.tasks
        1).map (fun t => t.description) = some "Valid" ∧
    c1Task.description = "Todo" ∧ ("Valid" : String) ≠ "Todo" :=
  ⟨rfl, rfl, rfl, by decide⟩

/-- The task after `update_task`'s description step, as the amended claim
describes it: trimmed and stored when provided, untouched otherwise. -/
def descriptionStep (t : TodoTask) : Option String → TodoTask
  | none => t
  | some s => { t with description := pyStrip s }

/-- The task after `update_task`'s priority step (for a valid provided
priority). -/
def priorityStep (t : TodoTask) : Option String → TodoTask
  | none => t
  | some p => { t with priority := some p }

/-- The task after `update_task`'s tags step (for a valid provided list). -/
def tagsStep (t : TodoTask) : Option (List String) → TodoTask
  | none => t
  | some ts => { t with tags := ts }

/-- The provided description argument passes `update_task`'s validation. -/
def DescArgOk (a : Option String) : Prop := ∀ s, a = some s → pyStrip s ≠ ""

/-- The provided priority argument passes `update_task`'s validation. -/
def PrioArgOk (b : Option String) : Prop :=
  ∀ s, b = some s → s = "high" ∨ s = "medium" ∨ s = "low"

/-- The provided tags argument passes `update_task`'s validation. -/
def TagsArgOk (c : Option (List String)) : Prop :=
  ∀ ts, c = some ts → ts.length ≤ 10 ∧ firstTagError ts = none

theorem applyDescription_ok {t : TodoTask} {a : Option String} (h : DescArgOk a) :
    applyDescription t a = .ok (descriptionStep t a) := by
  cases a with
  | none => rfl
  | some s =>
    unfold applyDescription descriptionStep
    dsimp only
    rw [if_neg (h s rfl)]

theorem applyPriority_ok {t : TodoTask} {b : Option String} (h : PrioArgOk b) :
    applyPriority t b = .ok (priorityStep t b) := by
  cases b with
  | none => rfl
  | some p =>
    have hb : (p = "high" || p = "medium" || p = "low") = true := by
      rcases h p rfl with h' | h' | h' <;> simp [h']
    unfold applyPriority priorityStep
    dsimp only
    rw [if_pos hb]

theorem applyTags_ok {t : TodoTask} {c : Option (List String)} (h : TagsArgOk c) :
    applyTags t c = .ok (tagsStep t c) := by
  cases c with
  | none => rfl
  | some ts =>
    obtain ⟨hlen, hte⟩ := h ts rfl
    unfold applyTags tagsStep
    dsimp only
    rw [if_neg (by omega : ¬ ts.length > 10), hte]

theorem applyDescription_err {t : TodoTask} {da : String} (h : pyStrip da = "") :
    applyDescription t (some da) =
      .error "Task description cannot be empty or contain only whitespace" := by
  unfold applyDescription
  dsimp only
  rw [if_pos h]

theorem applyPriority_err {t : TodoTask} {p : String}
    (h : ¬ (p = "high" ∨ p = "medium" ∨ p = "low")) :
    applyPriority t (some p) =
      .error "Priority must be one of: 'high', 'medium', 'low', or None" := by
  cases hb : (p = "high" || p = "medium" || p = "low") with
  | false =>
    unfold applyPriority
    dsimp only
    rw [hb]
    rfl
  | true =>
    exfalso
    apply h
    simp only [Bool.or_eq_true, decide_eq_true_eq] at hb
    tauto

theorem applyTags_err {t : TodoTask} {ts : List String}
    (h : ts.length > 10 ∨ firstTagError ts ≠ none) :
    ∃ msg, applyTags t (some ts) = .error msg := by
  unfold applyTags
  dsimp only
  by_cases hlen : ts.length > 10
  · exact ⟨_, by rw [if_pos hlen]⟩
  · rcases h with h | h
    · exact absurd h hlen
    · rcases hte : firstTagError ts with _ | msg
      · exact absurd hte h
      · refine ⟨msg, ?_⟩
        rw [if_neg hlen]

theorem applyRecurrence_err {t : TodoTask} {r : String}
    (h : ¬ (r = "none" ∨ r = "daily" ∨ r = "weekly" ∨ r = "monthly")) :
    applyRecurrence t (some r) =
      .error "Recurrence must be one of: 'none', 'daily', 'weekly', 'monthly', or None" := by
  cases hb : (r = "none" || r = "daily" || r = "weekly" || r = "monthly") with
  | false =>
    unfold applyRecurrence
    dsimp only
    rw [hb]
    rfl
  | true =>
    exfalso
    apply h
    simp only [Bool.or_eq_true, decide_eq_true_eq] at hb
    tauto

theorem replaceFirstById_self {l : List TodoTask} {i : Nat} {t : TodoTask}
    (h : get_task_by_id l i = some t) : replaceFirstById l i t = l := by
  induction l with
  | nil => rfl
  | cons a as ih =>
    unfold get_task_by_id at h
    unfold replaceFirstById
    by_cases ha : a.id = i
    · simp [ha] at h
      subst h
      simp [ha]
    · simp [ha] at h
      simp [ha, ih h]

/-- Whatever the arguments and wherever validation fails, `update_task` never
adds or removes a task. -/
theorem update_task_length (m : TaskManager) (i : Nat) (a b : Option String)
    (c : Option (List String)) (e f : Option String) :
    (update_task m i a b c e f).2.tasks.length = m.tasks.length := by
  unfold update_task
  cases hfound : get_task_by_id m.tasks i with
  | none => rfl
  | some t0 =>
    dsimp only
    cases hd : applyDescription t0 a with
    | error e1 => exact length_replaceFirstById m.tasks i t0
    | ok t1 =>
      dsimp only
      cases hp : applyPriority t1 b with
      | error e2 => exact length_replaceFirstById m.tasks i t1
      | ok t2 =>
        dsimp only
        cases htg : applyTags t2 c with
        | error e3 => exact length_replaceFirstById m.tasks i t2
        | ok t3 =>
          dsimp only
          cases hr : applyRecurrence (applyDueDate t3 e) f with
          | error e4 => exact length_replaceFirstById m.tasks i (applyDueDate t3 e)
          | ok t5 => exact length_replaceFirstById m.tasks i t5

/-- C1 (amended): `update_task` validates and applies the provided fields in
source order — description, priority, tags, due date, recurrence — and a
`ValidationError` leaves the fields applied before the failing check modified
while the failing and later fields stay untouched; no task is ever added or
removed. The conjuncts cover every failing position over every combination of
provided fields: an invalid description mutates nothing; an invalid priority
leaves the (possibly applied) description in place; an invalid tag list
leaves description and priority in place; an invalid recurrence leaves
description, priority, tags and due date in place (the due date itself is
never validated). -/
theorem claim_C1 (m : TaskManager) (i : Nat) (t : TodoTask)
    (a b : Option String) (c : Option (List String)) (e f : Option String)
    (hfound : get_task_by_id m.tasks i = some t) :
    (∀ da, a = some da → pyStrip da = "" →
      update_task m i a b c e f =
        (.error "Task description cannot be empty or contain only whitespace", m)) ∧
    (DescArgOk a → ∀ pb, b = some pb →
      ¬ (pb = "high" ∨ pb = "medium" ∨ pb = "low") →
      update_task m i a b c e f =
        (.error "Priority must be one of: 'high', 'medium', 'low', or None",
         { m with tasks := replaceFirstById m.tasks i (descriptionStep t a) })) ∧
    (DescArgOk a → PrioArgOk b → ∀ ts, c = some ts →
      ts.length > 10 ∨ firstTagError ts ≠ none →
      ∃ msg, update_task m i a b c e f =
        (.error msg,
         { m with
             tasks := replaceFirstById m.tasks i (priorityStep (descriptionStep t a) b) })) ∧
    (DescArgOk a → PrioArgOk b → TagsArgOk c → ∀ rf, f = some rf →
      ¬ (rf = "none" ∨ rf = "daily" ∨ rf = "weekly" ∨ rf = "monthly") →
      update_task m i a b c e f =
        (.error "Recurrence must be one of: 'none', 'daily', 'weekly', 'monthly', or None",
         { m with
             tasks := replaceFirstById m.tasks i
               (applyDueDate (tagsStep (priorityStep (descriptionStep t a) b) c) e) })) ∧
    (update_task m i a b c e f).2.tasks.length = m.tasks.length := by
  refine ⟨?_, ?_, ?_, ?_, update_task_length m i a b c e f⟩
  · intro da ha hda
    subst ha
    unfold update_task
    rw [hfound]
    dsimp only
    rw [applyDescription_err hda]
    dsimp only
    rw [replaceFirstById_self hfound]
  · intro hda pb hb hpb
    subst hb
    unfold update_task
    rw [hfound]
    dsimp only
    rw [applyDescription_ok hda]
    dsimp only
    rw [applyPriority_err hpb]
  · intro hda hbok ts hc hbad
    subst hc
    obtain ⟨msg, hmsg⟩ :=
      @applyTags_err (priorityStep (descriptionStep t a) b) ts hbad
    refine ⟨msg, ?_⟩
    unfold update_task
    rw [hfound]
    dsimp only
    rw [applyDescription_ok hda]
    dsimp only
    rw [applyPriority_ok hbok]
    dsimp only
    rw [hmsg]
  · intro hda hbok hcok rf hf hrf
    subst hf
    unfold update_task
    rw [hfound]
    dsimp only
    rw [applyDescription_ok hda]
    dsimp only
    rw [applyPriority_ok hbok]
    dsimp only
    rw [applyTags_ok hcok]
    dsimp only
    rw [applyRecurrence_err hrf]

/-- Witness for C1's amended theorem: on the concrete store, an invalid
priority leaves the already-applied description in place, and an invalid tag
list leaves the applied description and priority in place. -/
theorem claim_C1_witness :
    (update_task c1Manager 1 (some "Valid") (some "bogus") none none none =
      (.error "Priority must be one of: 'high', 'medium', 'low', or None",
       { c1Manager with
           tasks := replaceFirstById c1Manager.tasks 1 (descriptionStep c1Task (some "Valid")) })) ∧
    (∃ msg, update_task c1Manager 1 (some "New") (some "high") (some [""]) none none =
      (.error msg,
       { c1Manager with
           tasks := replaceFirstById c1Manager.tasks 1
             (priorityStep (descriptionStep c1Task (some "New")) (some "high")) })) :=
  ⟨(claim_C1 c1Manager 1 c1Task (some "Valid") (some "bogus") none none none rfl).2.1
      (by intro s hs; injection hs with hs; subst hs; decide) "bogus" rfl (by decide),
   (claim_C1 c1Manager 1 c1Task (some "New") (some "high") (some [""]) none none rfl).2.2.1
      (by intro s hs; injection hs with hs; subst hs; decide)
      (by intro s hs; injection hs with hs; subst hs; exact Or.inl rfl)
      [""] rfl (Or.inr (by decide))⟩

/-! ## Claim C2: the due-soon/upcoming boundary -/

/-- A task due 2025-01-02 01:00, i.e. exactly 25 hours after the `now` used in
`claim_C2`. -/
def c2Task : TodoTask :=
  { id := 1, description := "Report", completed := false, priority := none, tags := [],
    created_at := "2025-01-01T00:00:00", due_date := some "2025-01-02T01:00:00",
    recurrence := "none", last_completed := none }

/-- A manager holding only `c2Task`. -/
def c2Manager : TaskManager := { tasks := [c2Task], nextId := 2 }

/-- C2 (code bug): the filter classifies by the `timedelta.seconds` component,
which drops whole days. A task due exactly 25 hours from now (difference
90000 s, i.e. 1 day + 3600 s) is therefore included by
`filter(due_status="due-soon")` and excluded by `filter(due_status="upcoming")`,
although its due date is more than one hour away — contradicting the code's
own comments ("Due within the next hour"), the standalone classifier, and the
spec's classification. -/
theorem claim_C2 :
    toSecs ⟨2025, 1, 2, 1, 0, 0⟩ - toSecs ⟨2025, 1, 1, 0, 0, 0⟩ = 90000 ∧
    fromisoformat "2025-01-02T01:00:00" = some ⟨2025, 1, 2, 1, 0, 0⟩ ∧
    filter_tasks c2Manager none none none (some "due-soon") none
        (toSecs ⟨2025, 1, 1, 0, 0, 0⟩) = [c2Task] ∧
    filter_tasks c2Manager none none none (some "upcoming") none
        (toSecs ⟨2025, 1, 1, 0, 0, 0⟩) = [] := by
  refine ⟨by decide, by decide, by decide, by decide⟩

/-! ## Claim C5: classifier/filter overdue asymmetry -/

/-- C5: for every task whose due date parses to a time strictly earlier than
`now`, the standalone classifier returns OVERDUE — it never sees the
completed flag — while `filter(due_status="overdue")` contains the task
exactly when it additionally is not completed. -/
theorem claim_C5 (m : TaskManager) (t : TodoTask) (now : Nat) (s : String)
    (d : DateTime) (hs : t.due_date = some s) (hparse : fromisoformat s = some d)
    (hlt : toSecs d < now) :
    get_due_date_status t.due_date now = some ("OVERDUE", "[RED] Overdue") ∧
    (t ∈ filter_tasks m none none none (some "overdue") none now ↔
      t ∈ m.tasks ∧ t.completed = false) := by
  have hne : s ≠ "" := by
    intro h
    rw [h, show fromisoformat "" = none from rfl] at hparse
    exact Option.noConfusion hparse
  constructor
  · rw [hs]
    simp [get_due_date_status, hne, hparse, hlt]
  · have hred : filter_tasks m none none none (some "overdue") none now =
        m.tasks.filter (overdueFilter now) := by
      simp [filter_tasks]
    have hov : overdueFilter now t = !t.completed := by
      unfold overdueFilter
      rw [hs]
      simp [hne, hparse, hlt]
    rw [hred, List.mem_filter, hov]
    simp [Bool.not_eq_true']

/-- A completed, past-due task: classifies OVERDUE yet is excluded by the
overdue filter. -/
def c5Task : TodoTask :=
  { id := 1, description := "Old report", completed := true, priority := none,
    tags := [], created_at := "2025-01-01T00:00:00",
    due_date := some "2025-01-01T12:00:00", recurrence := "none",
    last_completed := none }

/-- A manager holding only `c5Task`. -/
def c5Manager : TaskManager := { tasks := [c5Task], nextId := 2 }

/-- Witness for C5: on the completed, past-due `c5Task` the classifier says
OVERDUE while membership in the overdue filter is equivalent to
`completed = false` (so the task is excluded, being completed). -/
theorem claim_C5_witness :
    (get_due_date_status c5Task.due_date (toSecs ⟨2025, 6, 1, 0, 0, 0⟩) =
      some ("OVERDUE", "[RED] Overdue") ∧
    (c5Task ∈ filter_tasks c5Manager none none none (some "overdue") none
        (toSecs ⟨2025, 6, 1, 0, 0, 0⟩) ↔
      c5Task ∈ c5Manager.tasks ∧ c5Task.completed = false)) ∧
    c5Task.completed = true :=
  ⟨claim_C5 c5Manager c5Task (toSecs ⟨2025, 6, 1, 0, 0, 0⟩) "2025-01-01T12:00:00"
      ⟨2025, 1, 1, 12, 0, 0⟩ rfl (by decide) (by decide), rfl⟩

/-! ## Claims C3 and C9: recurrence spawn -/

/-- Inversion for `mark_complete` on a recurring task with a parseable due
date whose next-date computation succeeds: the call returns `True`, the found
task is completed in place with `last_completed` stamped, and exactly one
clone (next id, same description, priority, tags and recurrence, recomputed
due date, not completed, no `last_completed`) is appended. -/
theorem mark_complete_spawn (m : TaskManager) (i : Nat) (t : TodoTask)
    (s now : String) (d nd : DateTime)
    (hfound : get_task_by_id m.tasks i = some t)
    (hrec : t.recurrence = "daily" ∨ t.recurrence = "weekly" ∨ t.recurrence = "monthly")
    (hdue : t.due_date = some s) (hparse : fromisoformat s = some d)
    (hnext : nextDueDate d t.recurrence = some nd) :
    mark_complete m i now =
      (.ok true,
       { tasks := replaceFirstById m.tasks i
            { t with completed := true, last_completed := some now } ++
          [{ id := m.nextId, description := t.description, completed := false,
             priority := t.priority, tags := t.tags, created_at := now,
             due_date := some (isoformat nd), recurrence := t.recurrence,
             last_completed := none }],
         nextId := m.nextId + 1 }) := by
  have hne : s ≠ "" := by
    intro h
    rw [h, show fromisoformat "" = none from rfl] at hparse
    exact Option.noConfusion hparse
  have hrecne : t.recurrence ≠ "" ∧ t.recurrence ≠ "none" := by
    rcases hrec with h | h | h <;> rw [h] <;> exact ⟨by decide, by decide⟩
  unfold mark_complete
  rw [hfound]
  dsimp only
  rw [hdue]
  dsimp only [Option.getD]
  rw [if_pos ⟨hrecne.1, hrecne.2, hne⟩]
  unfold calculate_next_due_date
  rw [hparse]
  dsimp only [Option.bind]
  rw [hnext]
  dsimp only [Option.map]

/-- C3 (amended): completing a stored task whose recurrence is daily, weekly
or monthly and whose due date is a parseable timestamp (the data model's type
for due dates) returns `True`, marks the original completed with
`last_completed` stamped, and appends exactly one new task carrying the next
id, the same description, priority, tags and recurrence, `completed = false`,
no `last_completed`, and the recomputed next due date — provided that
recomputation succeeds, i.e. the next due date stays within Python's calendar
(year ≤ 9999); the task count grows by exactly one and, the rewrite touching
only the task with the completed id, no other task changes. At boundary due
dates the recomputation raises instead (see the counterexample). -/
theorem claim_C3 (m : TaskManager) (i : Nat) (t : TodoTask) (s now : String)
    (d nd : DateTime)
    (hfound : get_task_by_id m.tasks i = some t)
    (hrec : t.recurrence = "daily" ∨ t.recurrence = "weekly" ∨ t.recurrence = "monthly")
    (hdue : t.due_date = some s) (hparse : fromisoformat s = some d)
    (hnext : nextDueDate d t.recurrence = some nd) :
    mark_complete m i now =
      (.ok true,
       { tasks := replaceFirstById m.tasks i
            { t with completed := true, last_completed := some now } ++
          [{ id := m.nextId, description := t.description, completed := false,
             priority := t.priority, tags := t.tags, created_at := now,
             due_date := some (isoformat nd), recurrence := t.recurrence,
             last_completed := none }],
         nextId := m.nextId + 1 }) ∧
    (mark_complete m i now).2.tasks.length = m.tasks.length + 1 := by
  have h := mark_complete_spawn m i t s now d nd hfound hrec hdue hparse hnext
  refine ⟨h, ?_⟩
  rw [h]
  simp [length_replaceFirstById]

/-- A daily task due on the last day of Python's calendar: its next due date
cannot be represented. -/
def c3xTask : TodoTask :=
  { id := 1, description := "End of days", completed := false, priority := none,
    tags := [], created_at := "9999-12-30T00:00:00",
    due_date := some "9999-12-31T10:00:00", recurrence := "daily",
    last_completed := none }

/-- A manager holding only `c3xTask`. -/
def c3xManager : TaskManager := { tasks := [c3xTask], nextId := 2 }

/-- C3 counterexample: for the stored daily task due 9999-12-31 10:00 — a
parseable due date with recurrence daily, inside the claim's stated domain —
`mark_complete` raises (`OverflowError` from the `+ timedelta(days=1)` in
`calculate_next_due_date`) instead of returning `True`: no clone is appended,
the count stays 1, and the original is left mutated (completed, with
`last_completed` stamped) by the statements executed before the raise. -/
theorem claim_C3_counterexample :
    fromisoformat "9999-12-31T10:00:00" = some ⟨9999, 12, 31, 10, 0, 0⟩ ∧
    nextDueDate ⟨9999, 12, 31, 10, 0, 0⟩ "daily" = none ∧
    mark_complete c3xManager 1 "9999-12-31T11:00:00" =
      (.error "ValueError",
       { tasks := [{ c3xTask with completed := true,
                                   last_completed := some "9999-12-31T11:00:00" }],
         nextId := 2 }) ∧
    (mark_complete c3xManager 1 "9999-12-31T11:00:00").2.tasks.length =
      c3xManager.tasks.length := by
  refine ⟨by decide, by decide, rfl, by decide⟩

/-- A recurring stored task used by the C3 and C9 witnesses. -/
def c3Task : TodoTask :=
  { id := 1, description := "Water plants", completed := false, priority := some "low",
    tags := ["home"], created_at := "2025-01-01T00:00:00",
    due_date := some "2025-01-10T09:00:00", recurrence := "daily",
    last_completed := none }

/-- A manager holding only `c3Task`. -/
def c3Manager : TaskManager := { tasks := [c3Task], nextId := 2 }

/-- Witness for C3 on a concrete daily task due 2025-01-10 09:00: the clone is
due 2025-01-11 09:00 and the count goes from 1 to 2. -/
theorem claim_C3_witness :
    (mark_complete c3Manager 1 "2025-01-10T10:00:00" =
      (.ok true,
       { tasks := replaceFirstById c3Manager.tasks 1
            { c3Task with completed := true,
                          last_completed := some "2025-01-10T10:00:00" } ++
          [{ id := c3Manager.nextId, description := c3Task.description,
             completed := false, priority := c3Task.priority, tags := c3Task.tags,
             created_at := "2025-01-10T10:00:00",
             due_date := some (isoformat ⟨2025, 1, 11, 9, 0, 0⟩),
             recurrence := c3Task.recurrence, last_completed := none }],
         nextId := c3Manager.nextId + 1 }) ∧
    (mark_complete c3Manager 1 "2025-01-10T10:00:00").2.tasks.length =
      c3Manager.tasks.length + 1) ∧
    isoformat (⟨2025, 1, 11, 9, 0, 0⟩ : DateTime) = "2025-01-11T09:00:00" :=
  ⟨claim_C3 c3Manager 1 c3Task "2025-01-10T09:00:00" "2025-01-10T10:00:00"
      ⟨2025, 1, 10, 9, 0, 0⟩ ⟨2025, 1, 11, 9, 0, 0⟩ rfl (Or.inl rfl) rfl
      (by decide) (by decide), by decide⟩

/-- C9 (amended): `mark_complete` is not idempotent on recurring tasks whose
next due date is representable — a second call on the same id, although the
task is already completed, returns `True` again, overwrites `last_completed`
with the newer time, and appends one more clone, so two consecutive calls
grow the task count by exactly 2. (At boundary due dates even the first call
raises and spawns nothing — see the counterexample.) -/
theorem claim_C9 (m : TaskManager) (i : Nat) (t : TodoTask) (s now1 now2 : String)
    (d nd : DateTime)
    (hfound : get_task_by_id m.tasks i = some t)
    (hrec : t.recurrence = "daily" ∨ t.recurrence = "weekly" ∨ t.recurrence = "monthly")
    (hdue : t.due_date = some s) (hparse : fromisoformat s = some d)
    (hnext : nextDueDate d t.recurrence = some nd) :
    (mark_complete m i now1).1 = .ok true ∧
    (mark_complete (mark_complete m i now1).2 i now2).1 = .ok true ∧
    (mark_complete (mark_complete m i now1).2 i now2).2.tasks.length =
      m.tasks.length + 2 ∧
    get_task_by_id (mark_complete (mark_complete m i now1).2 i now2).2.tasks i =
      some { t with completed := true, last_completed := some now2 } := by
  have h1 := mark_complete_spawn m i t s now1 d nd hfound hrec hdue hparse hnext
  have hfound1 : get_task_by_id (mark_complete m i now1).2.tasks i =
      some { t with completed := true, last_completed := some now1 } := by
    rw [h1]
    have hid : t.id = i := get_task_by_id_id hfound
    exact get_task_by_id_append (get_task_by_id_replace _ hfound hid)
  have h2 := mark_complete_spawn (mark_complete m i now1).2 i
    { t with completed := true, last_completed := some now1 } s now2 d nd hfound1
    hrec hdue hparse hnext
  refine ⟨by rw [h1], by rw [h2], ?_, ?_⟩
  · rw [h2]
    simp only [length_replaceFirstById, List.length_append, List.length_cons,
      List.length_nil]
    rw [h1]
    simp [length_replaceFirstById]
  · rw [h2]
    have hid1 : t.id = i := get_task_by_id_id hfound
    exact get_task_by_id_append (get_task_by_id_replace _ hfound1 hid1)

/-- C9 counterexample: on the daily task due 9999-12-31 — recurrence daily,
due date set and parseable — even the first `mark_complete` raises instead of
returning `True`, and two consecutive calls append nothing: the count stays 1
instead of growing by 2. -/
theorem claim_C9_counterexample :
    (mark_complete c3xManager 1 "t1").1 = .error "ValueError" ∧
    (mark_complete (mark_complete c3xManager 1 "t1").2 1 "t2").1 =
      .error "ValueError" ∧
    (mark_complete (mark_complete c3xManager 1 "t1").2 1 "t2").2.tasks.length =
      c3xManager.tasks.length := by
  refine ⟨rfl, rfl, by decide⟩

/-- Witness for C9: two consecutive completions of the concrete daily task
spawn two clones (count 1 → 3) and leave the original stamped with the second
completion time. -/
theorem claim_C9_witness :
    (mark_complete c3Manager 1 "2025-01-10T10:00:00").1 = .ok true ∧
    (mark_complete (mark_complete c3Manager 1 "2025-01-10T10:00:00").2 1
        "2025-01-10T11:00:00").1 = .ok true ∧
    (mark_complete (mark_complete c3Manager 1 "2025-01-10T10:00:00").2 1
        "2025-01-10T11:00:00").2.tasks.length = c3Manager.tasks.length + 2 ∧
    get_task_by_id (mark_complete (mark_complete c3Manager 1 "2025-01-10T10:00:00").2 1
        "2025-01-10T11:00:00").2.tasks 1 =
      some { c3Task with completed := true,
                         last_completed := some "2025-01-10T11:00:00" } :=
  claim_C9 c3Manager 1 c3Task "2025-01-10T09:00:00" "2025-01-10T10:00:00"
    "2025-01-10T11:00:00" ⟨2025, 1, 10, 9, 0, 0⟩ ⟨2025, 1, 11, 9, 0, 0⟩ rfl
    (Or.inl rfl) rfl (by decide) (by decide)

/-! ## Claim C8: tag invariants -/

/-- Tag well-formedness of one task: at most 10 tags, each at most 30
characters long and non-empty after trimming. (The engine does not enforce
uniqueness — see the C8 counterexample.) -/
def TagsOk (t : TodoTask) : Prop :=
  t.tags.length ≤ 10 ∧ ∀ g ∈ t.tags, g.data.length ≤ 30 ∧ pyStrip g ≠ ""

theorem tagsOk_applyDescription {t t' : TodoTask} {a : Option String}
    (h : applyDescription t a = .ok t') (ht : TagsOk t) : TagsOk t' := by
  cases a with
  | none =>
    injection h with h
    subst h
    exact ht
  | some d =>
    by_cases hc : pyStrip d = ""
    · simp [applyDescription, hc] at h
    · simp only [applyDescription, if_neg hc] at h
      injection h with h
      subst h
      exact ht

theorem tagsOk_applyPriority {t t' : TodoTask} {a : Option String}
    (h : applyPriority t a = .ok t') (ht : TagsOk t) : TagsOk t' := by
  cases a with
  | none =>
    injection h with h
    subst h
    exact ht
  | some p =>
    by_cases hc : (p = "high" || p = "medium" || p = "low") = true
    · simp only [applyPriority, if_pos hc] at h
      injection h with h
      subst h
      exact ht
    · simp [applyPriority, hc] at h

theorem tagsOk_applyTags {t t' : TodoTask} {a : Option (List String)}
    (h : applyTags t a = .ok t') (ht : TagsOk t) : TagsOk t' := by
  cases a with
  | none =>
    injection h with h
    subst h
    exact ht
  | some ts =>
    by_cases hlen : ts.length > 10
    · simp [applyTags, hlen] at h
    · rcases hte : firstTagError ts with _ | e
      · simp only [applyTags, if_neg hlen, hte] at h
        injection h with h
        subst h
        exact ⟨show ts.length ≤ 10 by omega, firstTagError_none hte⟩
      · simp [applyTags, hlen, hte] at h

theorem tagsOk_applyDueDate {t : TodoTask} (a : Option String) (ht : TagsOk t) :
    TagsOk (applyDueDate t a) := by
  cases a with
  | none => exact ht
  | some s => exact ht

theorem tagsOk_applyRecurrence {t t' : TodoTask} {a : Option String}
    (h : applyRecurrence t a = .ok t') (ht : TagsOk t) : TagsOk t' := by
  cases a with
  | none =>
    injection h with h
    subst h
    exact ht
  | some r =>
    by_cases hc : (r = "none" || r = "daily" || r = "weekly" || r = "monthly") = true
    · simp only [applyRecurrence, if_pos hc] at h
      injection h with h
      subst h
      exact ht
    · simp [applyRecurrence, hc] at h

/-- One engine call keeps every stored task's tags well formed — including the
states left behind by a `ValidationError` raised partway through an update. -/
theorem tagsOk_step (m : TaskManager) (op : EngineOp)
    (hm : ∀ u ∈ m.tasks, TagsOk u) :
    ∀ u ∈ (stepEngine m op).tasks, TagsOk u := by
  have hwrite : ∀ tk, TagsOk tk → ∀ i, ∀ u ∈ replaceFirstById m.tasks i tk, TagsOk u := by
    intro tk htk i u hu
    rcases mem_replaceFirstById hu with h | h
    · exact hm u h
    · subst h; exact htk
  cases op with
  | addOp d p tg dd r now =>
    simp only [stepEngine]
    cases h : add_task m d p tg dd r now with
    | error e => exact hm
    | ok pr =>
      obtain ⟨task, m'⟩ := pr
      obtain ⟨htask, hm', hlen, hte⟩ := add_task_ok h
      subst hm'
      intro u hu
      dsimp only at hu
      rcases List.mem_append.mp hu with h' | h'
      · exact hm u h'
      · have hu' : u = task := by simpa using h'
        subst hu'
        rw [htask]
        exact ⟨hlen, firstTagError_none hte⟩
  | updateOp i a b c e f =>
    simp only [stepEngine, update_task]
    cases hfound : get_task_by_id m.tasks i with
    | none => exact hm
    | some t0 =>
      have ht0 : TagsOk t0 := hm t0 (get_task_by_id_mem hfound)
      dsimp only
      cases hd : applyDescription t0 a with
      | error e1 => exact hwrite t0 ht0 i
      | ok t1 =>
        dsimp only
        have ht1 := tagsOk_applyDescription hd ht0
        cases hp : applyPriority t1 b with
        | error e2 => exact hwrite t1 ht1 i
        | ok t2 =>
          dsimp only
          have ht2 := tagsOk_applyPriority hp ht1
          cases htg : applyTags t2 c with
          | error e3 => exact hwrite t2 ht2 i
          | ok t3 =>
            dsimp only
            have ht3 := tagsOk_applyTags htg ht2
            have ht4 : TagsOk (applyDueDate t3 e) := tagsOk_applyDueDate e ht3
            cases hr : applyRecurrence (applyDueDate t3 e) f with
            | error e4 => exact hwrite _ ht4 i
            | ok t5 =>
              dsimp only
              have ht5 := tagsOk_applyRecurrence hr ht4
              exact hwrite t5 ht5 i
  | delOp i =>
    simp only [stepEngine, delete_task]
    cases hfound : get_task_by_id m.tasks i with
    | none => exact hm
    | some t =>
      intro u hu
      dsimp only at hu
      exact hm u (mem_eraseFirstById hu)
  | completeOp i now =>
    simp only [stepEngine, mark_complete]
    cases hfound : get_task_by_id m.tasks i with
    | none => exact hm
    | some t =>
      have ht : TagsOk t := hm t (get_task_by_id_mem hfound)
      have htc : TagsOk { t with completed := true, last_completed := some now } := ht
      dsimp only
      split
      · split
        · exact hwrite _ htc i
        · intro u hu
          dsimp only at hu
          rcases List.mem_append.mp hu with h' | h'
          · exact hwrite _ htc i u h'
          · have hu' := List.mem_singleton.mp h'
            subst hu'
            exact ht
      · exact hwrite _ htc i
  | incompleteOp i =>
    simp only [stepEngine, mark_incomplete]
    cases hfound : get_task_by_id m.tasks i with
    | none => exact hm
    | some t =>
      have ht : TagsOk t := hm t (get_task_by_id_mem hfound)
      exact hwrite { t with completed := false } ht i

/-- Every state reachable through engine calls has only well-formed tag
lists. -/
theorem runEngine_tagsOk (ops : List EngineOp) :
    ∀ u ∈ (runEngine ops).tasks, TagsOk u := by
  unfold runEngine
  have H : ∀ (m : TaskManager), (∀ u ∈ m.tasks, TagsOk u) →
      ∀ u ∈ (ops.foldl stepEngine m).tasks, TagsOk u := by
    induction ops with
    | nil => intro m hm; exact hm
    | cons op rest ih =>
      intro m hm
      rw [List.foldl_cons]
      exact ih (stepEngine m op) (tagsOk_step m op hm)
  refine H initManager ?_
  intro u hu
  simp [initManager] at hu

/-- C8 counterexample: the engine accepts duplicate tags — `add_task` with
`tags=["a","a"]` succeeds and stores the duplicated list verbatim, so the
claimed pairwise distinctness fails (deduplication happens only in the CLI's
`parse_tags_input`). -/
theorem claim_C8_counterexample :
    add_task initManager "t" none (some ["a", "a"]) none (some "none") "t0" =
      .ok ({ id := 1, description := "t", completed := false, priority := none,
             tags := ["a", "a"], created_at := "t0", due_date := none,
             recurrence := "none", last_completed := none },
           { tasks := [{ id := 1, description := "t", completed := false,
                         priority := none, tags := ["a", "a"], created_at := "t0",
                         due_date := none, recurrence := "none",
                         last_completed := none }],
             nextId := 2 }) ∧
    ¬ List.Nodup ["a", "a"] ∧
    ¬ List.Pairwise (fun x y => x ≠ y) (["a", "a"] : List String) :=
  ⟨rfl, by decide, by decide⟩

/-- C8 (amended): after any sequence of engine calls — adds, updates, deletes,
completions — every stored task's tag list has at most 10 tags, each at most
30 characters long and non-empty after trimming. (Pairwise distinctness is
dropped: the engine never rejects or removes duplicate tags.) -/
theorem claim_C8 (ops : List EngineOp) (t : TodoTask)
    (ht : t ∈ (runEngine ops).tasks) :
    t.tags.length ≤ 10 ∧ ∀ g ∈ t.tags, g.data.length ≤ 30 ∧ pyStrip g ≠ "" :=
  runEngine_tagsOk ops t ht

/-- Witness for C8 on a one-call run. -/
theorem claim_C8_witness :
    ({ id := 1, description := "Buy milk", completed := false, priority := none,
       tags := ["x"], created_at := "t0", due_date := none, recurrence := "none",
       last_completed := none } : TodoTask) ∈
      (runEngine [EngineOp.addOp "Buy milk" none (some ["x"]) none none "t0"]).tasks ∧
    (({ id := 1, description := "Buy milk", completed := false, priority := none,
        tags := ["x"], created_at := "t0", due_date := none, recurrence := "none",
        last_completed := none } : TodoTask).tags.length ≤ 10 ∧
      ∀ g ∈ ({ id := 1, description := "Buy milk", completed := false, priority := none,
               tags := ["x"], created_at := "t0", due_date := none, recurrence := "none",
               last_completed := none } : TodoTask).tags,
        g.data.length ≤ 30 ∧ pyStrip g ≠ "") :=
  ⟨by decide, claim_C8 [EngineOp.addOp "Buy milk" none (some ["x"]) none none "t0"]
    _ (by decide)⟩

/-! ## Claim C7: id monotonicity -/

theorem delete_task_nextId (m : TaskManager) (i : Nat) :
    (delete_task m i).2.nextId = m.nextId := by
  unfold delete_task
  cases hfound : get_task_by_id m.tasks i with
  | some t => rfl
  | none => rfl

/-- The ids collected by a run of `add`/`delete` calls are consecutive,
starting from the id counter of the starting state; `delete_task` never
touches the counter, and a failed `add` allocates nothing. -/
theorem runAddDel_ids (ops : List AddDelOp) :
    ∀ m : TaskManager,
      (runAddDel m ops).2 = List.range' m.nextId (runAddDel m ops).2.length := by
  induction ops with
  | nil => intro m; rfl
  | cons op rest ih =>
    intro m
    cases op with
    | addOp d p t dd r now =>
      simp only [runAddDel]
      cases h : add_task m d p t dd r now with
      | error e =>
        dsimp only
        exact ih m
      | ok pr =>
        obtain ⟨task, m'⟩ := pr
        obtain ⟨htask, hm', -, -⟩ := add_task_ok h
        dsimp only
        have hid : task.id = m.nextId := by rw [htask]
        have hnext : m'.nextId = m.nextId + 1 := by rw [hm']
        rw [List.length_cons, List.range'_succ, hid]
        congr 1
        rw [← hnext]
        exact ih m'
    | delOp i =>
      simp only [runAddDel]
      have hdel := ih (delete_task m i).2
      rw [delete_task_nextId] at hdel
      exact hdel

/-- C7: for any sequence of `add` calls interleaved with `delete` calls, the
ids returned by the successful `add` calls are exactly 1..N in call order
(`List.range' 1 N`), where N is the number of successful adds — the store
assigns ids in strictly increasing order starting at 1 and deletion never
frees an id for reuse. -/
theorem claim_C7 (ops : List AddDelOp) :
    (runAddDel initManager ops).2 =
      List.range' 1 (runAddDel initManager ops).2.length :=
  runAddDel_ids ops initManager

/-! ## Claim C6: due-date sorting and absent due dates -/

theorem sort_tasks_due_date_eq (m : TaskManager) (rev : Bool) (now : Nat) :
    sort_tasks m "due_date" rev now = sortByKeyStr dueDateKey rev m.tasks := by
  simp [sort_tasks]

/-- C6 (amended): provided every stored due date is lexicographically below
the `datetime.max` sentinel "9999-12-31T23:59:59.999999" — true of every real
ISO timestamp except that maximum itself — sorting by `due_date` ascending
places every task without a due date after every task with one, and sorting
descending places every task without a due date before every task with one
(the claim's asymmetry). Without the bound the claim fails, because the
engine stores any due-date string verbatim (see the counterexample). -/
theorem claim_C6 (m : TaskManager) (now : Nat)
    (hbound : ∀ t ∈ m.tasks, ∀ s, t.due_date = some s →
      pyStrLe datetimeMaxIso s = false) :
    List.Pairwise (fun a b => a.due_date = none → b.due_date = none)
      (sort_tasks m "due_date" false now) ∧
    List.Pairwise (fun a b => b.due_date = none → a.due_date = none)
      (sort_tasks m "due_date" true now) := by
  have ltrans : ∀ a b c : TodoTask,
      pyStrLe (dueDateKey a) (dueDateKey b) = true →
      pyStrLe (dueDateKey b) (dueDateKey c) = true →
      pyStrLe (dueDateKey a) (dueDateKey c) = true :=
    fun _ _ _ hab hbc => pyStrLe_trans hab hbc
  have ltot : ∀ a b : TodoTask,
      (pyStrLe (dueDateKey a) (dueDateKey b) ||
        pyStrLe (dueDateKey b) (dueDateKey a)) = true := by
    intro a b
    rcases pyStrLe_total (dueDateKey a) (dueDateKey b) with h | h <;> simp [h]
  constructor
  · rw [sort_tasks_due_date_eq]
    unfold sortByKeyStr
    have hsorted := @List.sorted_mergeSort TodoTask
      (fun a b => pyStrLe (dueDateKey a) (dueDateKey b)) ltrans ltot m.tasks
    refine List.Pairwise.imp_of_mem ?_ hsorted
    intro a b ha hb hle hanone
    cases hbd : b.due_date with
    | none => rfl
    | some s =>
      exfalso
      have hbmem : b ∈ m.tasks := List.mem_mergeSort.mp hb
      have hflt : pyStrLe datetimeMaxIso s = false := hbound b hbmem s hbd
      have hka : dueDateKey a = datetimeMaxIso := by simp [dueDateKey, hanone]
      have hkb : dueDateKey b = s := by simp [dueDateKey, hbd]
      rw [hka, hkb] at hle
      simp [hle] at hflt
  · rw [sort_tasks_due_date_eq]
    unfold sortByKeyStr
    have ltrans' : ∀ a b c : TodoTask,
        pyStrLe (dueDateKey b) (dueDateKey a) = true →
        pyStrLe (dueDateKey c) (dueDateKey b) = true →
        pyStrLe (dueDateKey c) (dueDateKey a) = true :=
      fun _ _ _ hab hbc => pyStrLe_trans hbc hab
    have ltot' : ∀ a b : TodoTask,
        (pyStrLe (dueDateKey b) (dueDateKey a) ||
          pyStrLe (dueDateKey a) (dueDateKey b)) = true := by
      intro a b
      rcases pyStrLe_total (dueDateKey a) (dueDateKey b) with h | h <;> simp [h]
    have hsorted := @List.sorted_mergeSort TodoTask
      (fun a b => pyStrLe (dueDateKey b) (dueDateKey a))
      (fun a b c hab hbc => ltrans' a b c hab hbc) ltot' m.tasks
    refine List.Pairwise.imp_of_mem ?_ hsorted
    intro a b ha hb hle hbnone
    cases had : a.due_date with
    | none => rfl
    | some s =>
      exfalso
      have hamem : a ∈ m.tasks := List.mem_mergeSort.mp ha
      have hflt : pyStrLe datetimeMaxIso s = false := hbound a hamem s had
      have hkb : dueDateKey b = datetimeMaxIso := by simp [dueDateKey, hbnone]
      have hka : dueDateKey a = s := by simp [dueDateKey, had]
      rw [hka, hkb] at hle
      simp [hle] at hflt

/-- The task the C6 counterexample stores with the adversarial due date "~"
(code point 126, lexicographically above the "9..." sentinel). -/
def c6TaskTilde : TodoTask :=
  { id := 1, description := "a", completed := false, priority := none, tags := [],
    created_at := "t1", due_date := some "~", recurrence := "none",
    last_completed := none }

/-- The task of the C6 counterexample without a due date. -/
def c6TaskNone : TodoTask :=
  { id := 2, description := "b", completed := false, priority := none, tags := [],
    created_at := "t2", due_date := none, recurrence := "none",
    last_completed := none }

/-- The two-task state of the C6 counterexample, reachable by two `add` calls. -/
def c6Manager : TaskManager := { tasks := [c6TaskTilde, c6TaskNone], nextId := 3 }

/-- C6 counterexample: the engine stores due dates verbatim, so a due date
lexicographically above the `datetime.max` sentinel (here "~") is reachable
through `add_task`; sorting that collection by `due_date` ascending puts the
task WITHOUT a due date first — before a task with one — refuting the claim's
"always last when ascending" for every task collection. -/
theorem claim_C6_counterexample :
    (add_task initManager "a" none none (some "~") (some "none") "t1" =
      .ok (c6TaskTilde, { tasks := [c6TaskTilde], nextId := 2 })) ∧
    (add_task { tasks := [c6TaskTilde], nextId := 2 } "b" none none none
        (some "none") "t2" = .ok (c6TaskNone, c6Manager)) ∧
    sort_tasks c6Manager "due_date" false 0 = [c6TaskNone, c6TaskTilde] ∧
    c6TaskNone.due_date = none ∧ c6TaskTilde.due_date = some "~" := by
  have h1 : pyStrLe (dueDateKey c6TaskTilde) (dueDateKey c6TaskNone) = false := rfl
  have h2 : pyStrLe (dueDateKey c6TaskNone) (dueDateKey c6TaskTilde) = true := rfl
  refine ⟨rfl, rfl, ?_, rfl, rfl⟩
  rw [sort_tasks_due_date_eq]
  unfold sortByKeyStr c6Manager
  simp [List.mergeSort, h1, h2]

/-- A task with a genuine ISO due date for the C6 witness. -/
def c6GoodTask : TodoTask :=
  { id := 1, description := "a", completed := false, priority := none, tags := [],
    created_at := "t1", due_date := some "2025-03-01T10:00:00",
    recurrence := "none", last_completed := none }

/-- A two-task manager (one task without a due date, one with a real ISO due
date) for the C6 witness. -/
def c6wManager : TaskManager := { tasks := [c6TaskNone, c6GoodTask], nextId := 3 }

/-- Witness for C6's amended theorem on a concrete manager whose only due
date is a real ISO timestamp. -/
theorem claim_C6_witness :
    (∀ t ∈ c6wManager.tasks, ∀ s, t.due_date = some s →
      pyStrLe datetimeMaxIso s = false) ∧
    (List.Pairwise (fun a b => a.due_date = none → b.due_date = none)
        (sort_tasks c6wManager "due_date" false 0) ∧
      List.Pairwise (fun a b => b.due_date = none → a.due_date = none)
        (sort_tasks c6wManager "due_date" true 0)) := by
  have hbound : ∀ t ∈ c6wManager.tasks, ∀ s, t.due_date = some s →
      pyStrLe datetimeMaxIso s = false := by
    intro t ht s hs
    simp only [c6wManager, List.mem_cons, List.not_mem_nil, or_false] at ht
    rcases ht with rfl | rfl
    · simp [c6TaskNone] at hs
    · simp only [c6GoodTask] at hs
      injection hs with hs
      subst hs
      decide
  exact ⟨hbound, claim_C6 c6wManager 0 hbound⟩
